import Mathlib

/-!
# Verification of the starter-ts-playwright core

This development embeds the pieces of the repository that its specification
makes claims about:

* the generic condition-polling primitive (the `Poller` of the spec §4.1;
  the repository consumes it as `pollUntil` from its external test-utility
  library, so the loop itself is modelled from the spec's step-by-step
  behaviour description);
* the `ApiClient` HTTP wrapper (`src/api/clients/api-client.ts`);
* the data builders (`src/api/helpers/data-builder.ts`), modelled over an
  explicit heap so that the aliasing behaviour of `build()`'s shallow copy
  is visible;
* `ResponseValidator.validateSchema` / `validateNestedSchema` together with
  `userSchema` (`src/api/schemas/user-schema.ts`).
-/

namespace Forge

/-! ## Poller: data model (spec §3) -/

/-- Modelled from the spec: the `PollConfig` record of §3.  The polling
utility itself (`pollUntil`) is provided by the external test-utility
library and its source is not part of this repository. -/
structure PollConfig where
  timeoutMs : Nat
  intervalMs : Nat
deriving Repr, DecidableEq

/-- Modelled from the spec: the `PredicateResult` of one check invocation
(§3): "not ready yet", "ready, here is T", or the check raised an error
(§4.1 error conditions). -/
inductive CheckResult (T : Type) where
  | notReady : CheckResult T
  | ready (v : T) : CheckResult T
  | threw (err : String) : CheckResult T
deriving Repr, DecidableEq

/-- Modelled from the spec: the `PollOutcome` of §3 extended with the
`FAILED` terminal state of §4.1's state machine.  `timeout` is the
`PollTimeoutError`, carrying the number of attempts made and the elapsed
time (§7).  `failed` propagates the check's own error; its `elapsedMs`
field records when the loop aborted (the propagated error object itself
carries no timing data). -/
inductive PollOutcome (T : Type) where
  | success (v : T) (attempts : Nat) (elapsedMs : Nat) : PollOutcome T
  | timeout (attempts : Nat) (elapsedMs : Nat) : PollOutcome T
  | failed (err : String) (attempts : Nat) (elapsedMs : Nat) : PollOutcome T
deriving Repr, DecidableEq

/-- Number of check invocations the outcome reflects. -/
def PollOutcome.attempts {T : Type} : PollOutcome T → Nat
  | .success _ a _ => a
  | .timeout a _ => a
  | .failed _ a _ => a

/-- Elapsed virtual time (ms since the recorded start) at which the poll
call produced its outcome. -/
def PollOutcome.elapsedMs {T : Type} : PollOutcome T → Nat
  | .success _ _ e => e
  | .timeout _ e => e
  | .failed _ _ e => e

/-! ## Poller: the loop (spec §4.1)

A check behaviour is a function `check : Nat → CheckResult T` giving the
result of invocation number `i` (0-based), and `dur : Nat → Nat` giving the
virtual duration in ms of invocation `i`.  Time is a virtual clock: an
attempt entered at elapsed time `e` completes at `e + dur i`; the
inter-attempt pause adds `intervalMs`.

The loop follows §4.1 literally: record start; invoke the check; on success
return at once (so the first attempt is never skipped); on a thrown error
propagate at once; otherwise compare the elapsed time against `timeoutMs`
*before sleeping again* — if the deadline is met or exceeded (§4.1 step 4),
fail with the timeout outcome, else sleep `intervalMs` and repeat.

`fuel` bounds the number of iterations so the function is total; `none`
means the fuel ran out before the loop terminated on its own. -/

/-- Modelled from the spec: one run of the §4.1 loop starting at attempt
index `i` with elapsed time `e`. -/
def pollAux {T : Type} (check : Nat → CheckResult T) (dur : Nat → Nat)
    (cfg : PollConfig) : Nat → Nat → Nat → Option (PollOutcome T)
  | _, _, 0 => none
  | i, e, fuel + 1 =>
    let t := e + dur i
    match check i with
    | .ready v => some (.success v (i + 1) t)
    | .threw err => some (.failed err (i + 1) t)
    | .notReady =>
      if cfg.timeoutMs ≤ t then some (.timeout (i + 1) t)
      else pollAux check dur cfg (i + 1) (t + cfg.intervalMs) fuel

/-- Modelled from the spec: `poll(check, config)` of §4.1, started at
attempt 0 and elapsed time 0 (step 1: "record a start timestamp"). -/
def poll {T : Type} (check : Nat → CheckResult T) (dur : Nat → Nat)
    (cfg : PollConfig) (fuel : Nat) : Option (PollOutcome T) :=
  pollAux check dur cfg 0 0 fuel

/-- Elapsed time at which attempt `i + k` completes, when attempt `i` is
entered at elapsed time `e` (the schedule the loop follows). -/
def elapsedAfter (dur : Nat → Nat) (interval : Nat) : Nat → Nat → Nat → Nat
  | e, i, 0 => e + dur i
  | e, i, k + 1 => elapsedAfter dur interval (e + dur i + interval) (i + 1) k

/-- Elapsed time at which attempt `i + k` is entered, when attempt `i` is
entered at elapsed time `e`. -/
def entryAt (dur : Nat → Nat) (interval : Nat) : Nat → Nat → Nat → Nat
  | e, _, 0 => e
  | e, i, k + 1 => entryAt dur interval (e + dur i + interval) (i + 1) k

/-- Start time of attempt `k` in a run that begins at time 0: each attempt
starts `dur + interval` after the previous one started. -/
def attemptStart (dur : Nat → Nat) (interval : Nat) : Nat → Nat
  | 0 => 0
  | k + 1 => attemptStart dur interval k + dur k + interval

/-- End time of attempt `k` in a run that begins at time 0. -/
def attemptEnd (dur : Nat → Nat) (interval : Nat) (k : Nat) : Nat :=
  attemptStart dur interval k + dur k

theorem elapsedAfter_eq_entryAt (dur : Nat → Nat) (interval : Nat) :
    ∀ k e i, elapsedAfter dur interval e i k = entryAt dur interval e i k + dur (i + k) := by
  intro k
  induction k with
  | zero => intro e i; simp [elapsedAfter, entryAt]
  | succ k ih =>
    intro e i
    show elapsedAfter dur interval (e + dur i + interval) (i + 1) k = _
    rw [ih]
    simp [entryAt, Nat.add_assoc, Nat.add_comm 1 k]

theorem elapsedAfter_zero_eq_attemptEnd (dur : Nat → Nat) (interval : Nat) :
    ∀ k, elapsedAfter dur interval 0 0 k = attemptEnd dur interval k := by
  have step : ∀ k e i, elapsedAfter dur interval e i (k + 1)
      = elapsedAfter dur interval e i k + interval + dur (i + k + 1) := by
    intro k
    induction k with
    | zero => intro e i; simp [elapsedAfter, Nat.add_assoc]
    | succ k ih =>
      intro e i
      show elapsedAfter dur interval (e + dur i + interval) (i + 1) (k + 1) = _
      rw [ih]
      show _ = elapsedAfter dur interval (e + dur i + interval) (i + 1) k + interval + _
      have : i + 1 + k + 1 = i + (k + 1) + 1 := by omega
      rw [this]
  intro k
  induction k with
  | zero => simp [elapsedAfter, attemptEnd, attemptStart]
  | succ k ih =>
    rw [step k 0 0, ih]
    simp only [attemptEnd, attemptStart, Nat.zero_add]

/-- Skipping `n` consecutive not-ready, in-budget attempts: the loop state
advances to attempt `i + n` entered at `entryAt dur interval e i n`. -/
theorem pollAux_skip {T : Type} (check : Nat → CheckResult T) (dur : Nat → Nat)
    (cfg : PollConfig) :
    ∀ (n i e fuel : Nat),
      (∀ k, k < n → check (i + k) = .notReady) →
      (∀ k, k < n → elapsedAfter dur cfg.intervalMs e i k < cfg.timeoutMs) →
      pollAux check dur cfg i e (n + fuel)
        = pollAux check dur cfg (i + n) (entryAt dur cfg.intervalMs e i n) fuel := by
  intro n
  induction n with
  | zero => intro i e fuel _ _; simp [entryAt]
  | succ n ih =>
    intro i e fuel hnot hbud
    have hc0 : check i = .notReady := by simpa using hnot 0 (Nat.succ_pos n)
    have hb0 : e + dur i < cfg.timeoutMs := by
      simpa [elapsedAfter] using hbud 0 (Nat.succ_pos n)
    show pollAux check dur cfg i e (n + 1 + fuel) = _
    have hunfold : pollAux check dur cfg i e (n + 1 + fuel)
        = pollAux check dur cfg (i + 1) (e + dur i + cfg.intervalMs) (n + fuel) := by
      have : n + 1 + fuel = (n + fuel) + 1 := by omega
      rw [this]
      simp only [pollAux, hc0]
      rw [if_neg (by omega)]
    rw [hunfold]
    rw [ih (i + 1) (e + dur i + cfg.intervalMs) fuel
      (fun k hk => by
        have := hnot (k + 1) (by omega)
        simpa [Nat.add_assoc, Nat.add_comm 1 k] using this)
      (fun k hk => by
        have := hbud (k + 1) (by omega)
        simpa [elapsedAfter] using this)]
    have h1 : i + 1 + n = i + (n + 1) := by omega
    rw [h1]
    rfl

/-- With the clock advancing at least 1 ms per iteration, `timeoutMs - e + 1`
units of fuel are enough for the loop to terminate on its own. -/
theorem pollAux_isSome {T : Type} (check : Nat → CheckResult T) (dur : Nat → Nat)
    (cfg : PollConfig) (hadv : ∀ i, 1 ≤ dur i + cfg.intervalMs) :
    ∀ fuel i e, cfg.timeoutMs - e + 1 ≤ fuel →
      (pollAux check dur cfg i e fuel).isSome := by
  intro fuel
  induction fuel with
  | zero => intro i e h; omega
  | succ fuel ih =>
    intro i e h
    simp only [pollAux]
    cases hc : check i with
    | ready v => simp
    | threw err => simp
    | notReady =>
      by_cases hto : cfg.timeoutMs ≤ e + dur i
      · rw [if_pos hto]; simp
      · rw [if_neg hto]
        apply ih
        have := hadv i
        omega

/-- Every outcome's elapsed time stays below `timeoutMs + intervalMs + D`
when every check invocation takes at most `D` ms: the deadline is tested
before sleeping again, so the loop can overshoot it by at most one pause
plus one check. -/
theorem pollAux_elapsed_lt {T : Type} (check : Nat → CheckResult T) (dur : Nat → Nat)
    (cfg : PollConfig) (D : Nat) (hD : ∀ i, dur i ≤ D) :
    ∀ fuel i e, e < cfg.timeoutMs + cfg.intervalMs →
      ∀ o, pollAux check dur cfg i e fuel = some o →
        o.elapsedMs < cfg.timeoutMs + cfg.intervalMs + D := by
  intro fuel
  induction fuel with
  | zero => intro i e _ o h; simp [pollAux] at h
  | succ fuel ih =>
    intro i e he o h
    simp only [pollAux] at h
    cases hc : check i with
    | ready v =>
      rw [hc] at h
      simp only [Option.some.injEq] at h
      subst h
      have := hD i
      simp only [PollOutcome.elapsedMs]
      omega
    | threw err =>
      rw [hc] at h
      simp only [Option.some.injEq] at h
      subst h
      have := hD i
      simp only [PollOutcome.elapsedMs]
      omega
    | notReady =>
      rw [hc] at h
      by_cases hto : cfg.timeoutMs ≤ e + dur i
      · rw [if_pos hto] at h
        simp only [Option.some.injEq] at h
        subst h
        have := hD i
        simp only [PollOutcome.elapsedMs]
        omega
      · rw [if_neg hto] at h
        exact ih (i + 1) (e + dur i + cfg.intervalMs) (by omega) o h

/-- Every outcome the loop produces from attempt index `i` reflects at
least `i + 1` check invocations. -/
theorem pollAux_attempts_le {T : Type} (check : Nat → CheckResult T) (dur : Nat → Nat)
    (cfg : PollConfig) :
    ∀ fuel i e o, pollAux check dur cfg i e fuel = some o → i + 1 ≤ o.attempts := by
  intro fuel
  induction fuel with
  | zero => intro i e o h; simp [pollAux] at h
  | succ fuel ih =>
    intro i e o h
    simp only [pollAux] at h
    cases hc : check i with
    | ready v =>
      rw [hc] at h
      simp only [Option.some.injEq] at h
      subst h
      simp [PollOutcome.attempts]
    | threw err =>
      rw [hc] at h
      simp only [Option.some.injEq] at h
      subst h
      simp [PollOutcome.attempts]
    | notReady =>
      rw [hc] at h
      by_cases hto : cfg.timeoutMs ≤ e + dur i
      · rw [if_pos hto] at h
        simp only [Option.some.injEq] at h
        subst h
        simp [PollOutcome.attempts]
      · rw [if_neg hto] at h
        have := ih (i + 1) (e + dur i + cfg.intervalMs) o h
        omega

/-- An always-not-ready check drives the loop into the timeout outcome. -/
theorem pollAux_timeout_of_notReady {T : Type} (check : Nat → CheckResult T)
    (dur : Nat → Nat) (cfg : PollConfig)
    (hadv : ∀ i, 1 ≤ dur i + cfg.intervalMs)
    (hnot : ∀ i, check i = .notReady) :
    ∀ fuel i e, cfg.timeoutMs - e + 1 ≤ fuel →
      ∃ a t, pollAux check dur cfg i e fuel = some (.timeout a t)
        ∧ cfg.timeoutMs ≤ t ∧ i + 1 ≤ a := by
  intro fuel
  induction fuel with
  | zero => intro i e h; omega
  | succ fuel ih =>
    intro i e h
    simp only [pollAux, hnot i]
    by_cases hto : cfg.timeoutMs ≤ e + dur i
    · rw [if_pos hto]
      exact ⟨i + 1, e + dur i, rfl, hto, Nat.le_refl _⟩
    · rw [if_neg hto]
      have hadvi := hadv i
      obtain ⟨a, t, hrun, hle, ha⟩ := ih (i + 1) (e + dur i + cfg.intervalMs) (by omega)
      exact ⟨a, t, hrun, hle, by omega⟩

/-- A timeout outcome can only come from attempts that all returned
"not ready": a success ends the loop as `success`, a thrown error ends it
as `failed`, so the timeout is synthesized solely by the clock logic. -/
theorem pollAux_timeout_checks {T : Type} (check : Nat → CheckResult T)
    (dur : Nat → Nat) (cfg : PollConfig) :
    ∀ fuel i e a t, pollAux check dur cfg i e fuel = some (.timeout a t) →
      ∀ k, i ≤ k → k < a → check k = .notReady := by
  intro fuel
  induction fuel with
  | zero => intro i e a t h; simp [pollAux] at h
  | succ fuel ih =>
    intro i e a t h k hik hka
    simp only [pollAux] at h
    cases hc : check i with
    | ready v => rw [hc] at h; simp at h
    | threw err => rw [hc] at h; simp at h
    | notReady =>
      rw [hc] at h
      by_cases hto : cfg.timeoutMs ≤ e + dur i
      · rw [if_pos hto] at h
        simp only [Option.some.injEq, PollOutcome.timeout.injEq] at h
        have hk : k = i := by omega
        rw [hk]; exact hc
      · rw [if_neg hto] at h
        by_cases hk : k = i
        · rw [hk]; exact hc
        · exact ih (i + 1) (e + dur i + cfg.intervalMs) a t h k (by omega) hka

/-- C1: if the check reports "not ready" on each of its first `n`
invocations and "ready" on invocation `n + 1`, all within the timeout
budget, then `poll` returns successfully right after invocation `n + 1`
(already with fuel for exactly `n + 1` iterations), the attempt count is
exactly `n + 1`, and the elapsed time is the schedule time of attempt `n`
— no further waiting against `timeoutMs` occurs. -/
theorem poll_succeeds_after_n {T : Type} (check : Nat → CheckResult T) (dur : Nat → Nat)
    (cfg : PollConfig) (n : Nat) (v : T)
    (hnot : ∀ k, k < n → check k = .notReady)
    (hbud : ∀ k, k < n → elapsedAfter dur cfg.intervalMs 0 0 k < cfg.timeoutMs)
    (hready : check n = .ready v) :
    poll check dur cfg (n + 1)
      = some (.success v (n + 1) (elapsedAfter dur cfg.intervalMs 0 0 n)) := by
  unfold poll
  rw [pollAux_skip check dur cfg n 0 0 1 (by simpa using hnot) (by simpa using hbud)]
  simp only [Nat.zero_add, pollAux, hready]
  rw [elapsedAfter_eq_entryAt]
  simp

/-- Witness for C1: the spec's counter scenario.  The check increments a
counter and reports ready once it reaches 5, `timeoutMs = 5000`,
`intervalMs = 100`, instantaneous checks: `poll` succeeds after exactly 5
invocations (counter = 5) at elapsed time 400 ms (four 100 ms waits
between five attempts), far under the 5000 ms budget. -/
theorem poll_succeeds_after_n_witness :
    poll (fun k => if 5 ≤ k + 1 then CheckResult.ready true else CheckResult.notReady)
      (fun _ => 0) ⟨5000, 100⟩ 5
      = some (.success true 5 400) := by
  have h := poll_succeeds_after_n
    (fun k => if 5 ≤ k + 1 then CheckResult.ready true else CheckResult.notReady)
    (fun _ => 0) ⟨5000, 100⟩ 4 true (by decide) (by decide) (by decide)
  have he : elapsedAfter (fun _ => 0) (100 : Nat) 0 0 4 = 400 := by decide
  rw [h, he]

/-- C2: with a positive timeout and an advancing clock, a check that never
reports success makes `poll` fail with the timeout outcome (the
`PollTimeoutError`), which carries the number of attempts made and the
elapsed time (at least `timeoutMs`); and, for any check whatsoever, a
timeout outcome implies every invocation made returned "not ready" — the
timeout is synthesized only by the poller's own clock logic, never from an
error thrown by the check. -/
theorem poll_timeout_error {T : Type} (check : Nat → CheckResult T) (dur : Nat → Nat)
    (cfg : PollConfig)
    (ht : 1 ≤ cfg.timeoutMs)
    (hadv : ∀ i, 1 ≤ dur i + cfg.intervalMs)
    (hnot : ∀ i, check i = .notReady) :
    (∃ a t, poll check dur cfg (cfg.timeoutMs + 1) = some (.timeout a t)
        ∧ cfg.timeoutMs ≤ t ∧ 1 ≤ a)
    ∧ ∀ (c : Nat → CheckResult T) (fuel a t : Nat),
        poll c dur cfg fuel = some (.timeout a t) →
          ∀ k, k < a → c k = .notReady := by
  constructor
  · obtain ⟨a, t, hrun, hle, ha⟩ :=
      pollAux_timeout_of_notReady check dur cfg hadv hnot (cfg.timeoutMs + 1) 0 0 (by omega)
    exact ⟨a, t, hrun, hle, ha⟩
  · intro c fuel a t h k hk
    exact pollAux_timeout_checks c dur cfg fuel 0 0 a t h k (Nat.zero_le k) hk

/-- Witness for C2: the spec's never-true scenario (`timeoutMs = 2000`,
`intervalMs = 100`, instantaneous checks). -/
theorem poll_timeout_error_witness :
    (∃ a t, poll (T := Bool) (fun _ => CheckResult.notReady) (fun _ => 0) ⟨2000, 100⟩ 2001
        = some (.timeout a t) ∧ 2000 ≤ t ∧ 1 ≤ a)
    ∧ ∀ (c : Nat → CheckResult Bool) (fuel a t : Nat),
        poll c (fun _ => 0) ⟨2000, 100⟩ fuel = some (.timeout a t) →
          ∀ k, k < a → c k = .notReady :=
  poll_timeout_error (fun _ => CheckResult.notReady) (fun _ => 0) ⟨2000, 100⟩
    (by norm_num) (fun _ => by norm_num) (fun _ => rfl)

/-- C3: if the check returns "not ready" for its first `n` invocations
(all within budget) and throws on invocation `n + 1`, `poll` propagates
that exact error immediately with exactly `n + 1` invocations made (fuel
`n + 1` suffices, so no further invocation happens); and — regardless of
`timeoutMs` — a check that throws on its second invocation makes `poll`
raise that error after exactly 2 invocations. -/
theorem poll_propagates_error {T : Type} (check : Nat → CheckResult T) (dur : Nat → Nat)
    (cfg : PollConfig) (n : Nat) (err : String)
    (hnot : ∀ k, k < n → check k = .notReady)
    (hbud : ∀ k, k < n → elapsedAfter dur cfg.intervalMs 0 0 k < cfg.timeoutMs)
    (hthrow : check n = .threw err) :
    poll check dur cfg (n + 1)
      = some (.failed err (n + 1) (elapsedAfter dur cfg.intervalMs 0 0 n))
    ∧ ∀ (c : Nat → CheckResult T) (err2 : String) (cfg2 : PollConfig),
        1 ≤ cfg2.timeoutMs → c 0 = .notReady → c 1 = .threw err2 →
        poll c (fun _ => 0) cfg2 2 = some (.failed err2 2 cfg2.intervalMs) := by
  constructor
  · unfold poll
    rw [pollAux_skip check dur cfg n 0 0 1 (by simpa using hnot) (by simpa using hbud)]
    simp only [Nat.zero_add, pollAux, hthrow]
    rw [elapsedAfter_eq_entryAt]
    simp
  · intro c err2 cfg2 ht hc0 hc1
    unfold poll
    simp only [pollAux, hc0, hc1]
    rw [if_neg (by omega)]
    simp

/-- Witness for C3: a check that is not ready once and throws "boom" on
its second invocation, under a 5000 ms budget. -/
theorem poll_propagates_error_witness :
    poll (T := Bool) (fun k => if k = 0 then CheckResult.notReady else CheckResult.threw "boom")
      (fun _ => 0) ⟨5000, 100⟩ 2
      = some (.failed "boom" 2 100) := by
  have h := poll_propagates_error (T := Bool)
    (fun k => if k = 0 then CheckResult.notReady else CheckResult.threw "boom")
    (fun _ => 0) ⟨5000, 100⟩ 1 "boom" (by decide) (by decide) (by decide)
  have he : elapsedAfter (fun _ => 0) (100 : Nat) 0 0 1 = 100 := by decide
  rw [he] at h
  exact h.1

/-- C4: `poll` invokes the check at least once before producing any
outcome, whatever the configuration: a first invocation that reports ready
succeeds immediately (even when its duration exceeds `timeoutMs`, the
first attempt is never skipped by timeout accounting), and every outcome
reflects at least one invocation. -/
theorem poll_at_least_one_attempt {T : Type} (check : Nat → CheckResult T)
    (dur : Nat → Nat) (cfg : PollConfig) (fuel : Nat) (hf : 1 ≤ fuel) :
    (∀ v, check 0 = .ready v → poll check dur cfg fuel = some (.success v 1 (dur 0)))
    ∧ (∀ o, poll check dur cfg fuel = some o → 1 ≤ o.attempts) := by
  constructor
  · intro v hv
    obtain ⟨fuel', rfl⟩ : ∃ fuel', fuel = fuel' + 1 :=
      ⟨fuel - 1, by omega⟩
    unfold poll
    simp [pollAux, hv]
  · intro o ho
    exact pollAux_attempts_le check dur cfg fuel 0 0 o ho

/-- Witness for C4: a check that is ready immediately but takes 50 ms,
under a 1 ms timeout — the first attempt still runs and succeeds. -/
theorem poll_at_least_one_attempt_witness :
    poll (T := Bool) (fun _ => CheckResult.ready true) (fun _ => 50) ⟨1, 0⟩ 1
      = some (.success true 1 50) :=
  (poll_at_least_one_attempt (fun _ => CheckResult.ready true) (fun _ => 50) ⟨1, 0⟩ 1
    (by norm_num)).1 true rfl

/-- C5: attempts are strictly sequential and totally ordered.  The loop's
elapsed time after attempt `k` is exactly the schedule time `attemptEnd k`,
and for any two attempts `i < j`, attempt `i` has fully completed
(`attemptEnd i`) before attempt `j` begins (`attemptStart j`): no two
invocation intervals overlap and no attempt starts while a prior one is
pending. -/
theorem poll_attempts_sequential (dur : Nat → Nat) (interval : Nat) :
    (∀ k, elapsedAfter dur interval 0 0 k = attemptEnd dur interval k)
    ∧ ∀ i j, i < j → attemptEnd dur interval i ≤ attemptStart dur interval j := by
  constructor
  · exact elapsedAfter_zero_eq_attemptEnd dur interval
  · intro i j hij
    have mono : ∀ m, attemptEnd dur interval i ≤ attemptStart dur interval (i + 1 + m) := by
      intro m
      induction m with
      | zero =>
        show attemptEnd dur interval i ≤ attemptStart dur interval (i + 1)
        simp only [attemptStart, attemptEnd]
        omega
      | succ m ih =>
        have : i + 1 + (m + 1) = (i + 1 + m) + 1 := by omega
        rw [this]
        simp only [attemptStart]
        omega
    have : j = i + 1 + (j - i - 1) := by omega
    rw [this]
    exact mono (j - i - 1)

/-- Witness for C5: with 1 ms checks and a 2 ms interval, attempt 0 ends
(at 1 ms) before attempt 1 starts (at 3 ms). -/
theorem poll_attempts_sequential_witness :
    attemptEnd (fun _ => 1) 2 0 ≤ attemptStart (fun _ => 1) 2 1 :=
  (poll_attempts_sequential (fun _ => 1) 2).2 0 1 (by norm_num)

/-- C6: with a positive timeout, an advancing clock (each iteration
consumes at least 1 ms of check time plus pause), and every check
invocation bounded by `D` ms, `poll` terminates within `timeoutMs + 1`
iterations and its total elapsed time stays below
`timeoutMs + intervalMs + D`: the deadline is tested before sleeping
again, so the loop never blocks longer than roughly the timeout plus one
pause plus one check past the start. -/
theorem poll_terminates_bounded {T : Type} (check : Nat → CheckResult T)
    (dur : Nat → Nat) (cfg : PollConfig) (D : Nat)
    (ht : 1 ≤ cfg.timeoutMs)
    (hadv : ∀ i, 1 ≤ dur i + cfg.intervalMs)
    (hD : ∀ i, dur i ≤ D) :
    ∃ o, poll check dur cfg (cfg.timeoutMs + 1) = some o
      ∧ o.elapsedMs < cfg.timeoutMs + cfg.intervalMs + D := by
  have hs := pollAux_isSome check dur cfg hadv (cfg.timeoutMs + 1) 0 0 (by omega)
  obtain ⟨o, ho⟩ := Option.isSome_iff_exists.mp hs
  exact ⟨o, ho, pollAux_elapsed_lt check dur cfg D hD (cfg.timeoutMs + 1) 0 0 (by omega) o ho⟩

/-- Witness for C6: a never-ready check taking 1 ms per invocation under
`timeoutMs = 5`, `intervalMs = 2`: the poll terminates and its elapsed
time stays under 5 + 2 + 1 ms. -/
theorem poll_terminates_bounded_witness :
    ∃ o, poll (T := Bool) (fun _ => CheckResult.notReady) (fun _ => 1) ⟨5, 2⟩ 6 = some o
      ∧ o.elapsedMs < 5 + 2 + 1 :=
  poll_terminates_bounded (fun _ => CheckResult.notReady) (fun _ => 1) ⟨5, 2⟩ 1
    (by norm_num) (fun _ => by norm_num) (fun _ => Nat.le_refl 1)

/-- C7: when `intervalMs ≥ timeoutMs`, `poll` still operates — it
terminates with an outcome within two iterations — and degenerates to at
most two check attempts before returning success or failing. -/
theorem poll_degenerate_interval {T : Type} (check : Nat → CheckResult T)
    (dur : Nat → Nat) (cfg : PollConfig)
    (hdeg : cfg.timeoutMs ≤ cfg.intervalMs) :
    ∃ o, poll check dur cfg 2 = some o ∧ o.attempts ≤ 2 := by
  unfold poll
  cases hc0 : check 0 with
  | ready v =>
    refine ⟨.success v 1 (0 + dur 0), ?_, by simp [PollOutcome.attempts]⟩
    simp [pollAux, hc0]
  | threw err =>
    refine ⟨.failed err 1 (0 + dur 0), ?_, by simp [PollOutcome.attempts]⟩
    simp [pollAux, hc0]
  | notReady =>
    by_cases hto : cfg.timeoutMs ≤ 0 + dur 0
    · refine ⟨.timeout 1 (0 + dur 0), ?_, by simp [PollOutcome.attempts]⟩
      simp only [pollAux, hc0]
      rw [if_pos hto]
    · have hto2 : cfg.timeoutMs ≤ 0 + dur 0 + cfg.intervalMs + dur 1 := by omega
      cases hc1 : check 1 with
      | ready v =>
        refine ⟨.success v 2 (0 + dur 0 + cfg.intervalMs + dur 1), ?_,
          by simp [PollOutcome.attempts]⟩
        simp only [pollAux, hc0, hc1]
        rw [if_neg hto]
      | threw err =>
        refine ⟨.failed err 2 (0 + dur 0 + cfg.intervalMs + dur 1), ?_,
          by simp [PollOutcome.attempts]⟩
        simp only [pollAux, hc0, hc1]
        rw [if_neg hto]
      | notReady =>
        refine ⟨.timeout 2 (0 + dur 0 + cfg.intervalMs + dur 1), ?_,
          by simp [PollOutcome.attempts]⟩
        simp only [pollAux, hc0, hc1]
        rw [if_neg hto, if_pos hto2]

/-- Witness for C7: `timeoutMs = 100 = intervalMs`, never-ready check:
poll terminates within two attempts. -/
theorem poll_degenerate_interval_witness :
    ∃ o, poll (T := Bool) (fun _ => CheckResult.notReady) (fun _ => 0) ⟨100, 100⟩ 2 = some o
      ∧ o.attempts ≤ 2 :=
  poll_degenerate_interval (fun _ => CheckResult.notReady) (fun _ => 0) ⟨100, 100⟩
    (by norm_num)

/-! ## JSON values

Payloads and response bodies, for the `ApiClient` and the schema
validator.  JS numbers are modelled as integers (the repository's schemas
only ever distinguish `typeof`). -/

inductive Json where
  | null : Json
  | bool (b : Bool) : Json
  | num (n : Int) : Json
  | str (s : String) : Json
  | arr (elems : List Json) : Json
  | obj (fields : List (String × Json)) : Json

/-! ## ApiClient (`src/api/clients/api-client.ts`) -/

/-- The default headers the `ApiClient` constructor starts from. -/
def defaultHeaders : List (String × String) :=
  [("Content-Type", "application/json"), ("Accept", "application/json")]

/-- JS object-spread merge `{ ...a, ...b }` on header maps: keys of `b`
win. -/
def mergeHeaders (a b : List (String × String)) : List (String × String) :=
  a.filter (fun kv => b.all (fun kv2 => kv2.1 != kv.1)) ++ b

/-- The Playwright `APIRequestContext` as `init()` configures it via
`request.newContext`. -/
structure APIRequestContext where
  baseURL : String
  extraHTTPHeaders : List (String × String)
  ignoreHTTPSErrors : Bool

/-- One HTTP request as dispatched through the context by an `ApiClient`
method. -/
structure ApiRequest where
  method : String
  url : String
  data : Option Json
  headers : List (String × String)

/-- The `ApiClient` class: a possibly-uninitialized request context plus
the base URL and header map fixed at construction. -/
structure ApiClient where
  context : Option APIRequestContext
  baseURL : String
  headers : List (String × String)

/-- `new ApiClient(baseURL, headers)`: an empty `baseURL` falls back to
the JSONPlaceholder default (`process.env.API_BASE_URL` is modelled as
unset), and the caller's headers are spread over the JSON defaults.  The
context starts out `null`. -/
def ApiClient.create (baseURL : String) (headers : List (String × String)) : ApiClient :=
  { context := none
    baseURL := if baseURL = "" then "https://jsonplaceholder.typicode.com" else baseURL
    headers := mergeHeaders defaultHeaders headers }

/-- `init()`: create the request context from the stored base URL and
headers. -/
def ApiClient.init (c : ApiClient) : ApiClient :=
  { c with context := some ⟨c.baseURL, c.headers, true⟩ }

/-- `new URLSearchParams(params).toString()` for the `get` query string
(percent-encoding belongs to the external runtime and is not modelled). -/
def encodeParams (ps : List (String × String)) : String :=
  String.intercalate "&" (ps.map (fun kv => kv.1 ++ "=" ++ kv.2))

/-- `get(endpoint, params?)`. -/
def ApiClient.get (c : ApiClient) (endpoint : String)
    (params : Option (List (String × String))) : Except String ApiRequest :=
  match c.context with
  | none => .error "API context not initialized. Call init() first."
  | some _ =>
    let url := match params with
      | some ps => endpoint ++ "?" ++ encodeParams ps
      | none => endpoint
    .ok { method := "GET", url := url, data := none, headers := [] }

/-- `post(endpoint, data?, headers?)`. -/
def ApiClient.post (c : ApiClient) (endpoint : String) (data : Option Json)
    (headers : List (String × String)) : Except String ApiRequest :=
  match c.context with
  | none => .error "API context not initialized. Call init() first."
  | some _ =>
    .ok { method := "POST", url := endpoint, data := data
          headers := mergeHeaders c.headers headers }

/-- `put(endpoint, data?, headers?)`. -/
def ApiClient.put (c : ApiClient) (endpoint : String) (data : Option Json)
    (headers : List (String × String)) : Except String ApiRequest :=
  match c.context with
  | none => .error "API context not initialized. Call init() first."
  | some _ =>
    .ok { method := "PUT", url := endpoint, data := data
          headers := mergeHeaders c.headers headers }

/-- `patch(endpoint, data?, headers?)`. -/
def ApiClient.patch (c : ApiClient) (endpoint : String) (data : Option Json)
    (headers : List (String × String)) : Except String ApiRequest :=
  match c.context with
  | none => .error "API context not initialized. Call init() first."
  | some _ =>
    .ok { method := "PATCH", url := endpoint, data := data
          headers := mergeHeaders c.headers headers }

/-- `delete(endpoint)`. -/
def ApiClient.delete (c : ApiClient) (endpoint : String) : Except String ApiRequest :=
  match c.context with
  | none => .error "API context not initialized. Call init() first."
  | some _ =>
    .ok { method := "DELETE", url := endpoint, data := none, headers := [] }

/-- C8: on a client whose context is still `null`, each of the five HTTP
methods fails with exactly the message
"API context not initialized. Call init() first." and dispatches no
request; once `init()` has completed, all five methods reach the dispatch
branch, so the error branch is unreachable. -/
theorem apiClient_requires_init (c : ApiClient) (endpoint : String)
    (params : Option (List (String × String))) (data : Option Json)
    (hdrs : List (String × String)) (hnone : c.context = none) :
    (c.get endpoint params = .error "API context not initialized. Call init() first."
      ∧ c.post endpoint data hdrs = .error "API context not initialized. Call init() first."
      ∧ c.put endpoint data hdrs = .error "API context not initialized. Call init() first."
      ∧ c.patch endpoint data hdrs = .error "API context not initialized. Call init() first."
      ∧ c.delete endpoint = .error "API context not initialized. Call init() first.")
    ∧ ((∃ r, (c.init).get endpoint params = .ok r)
      ∧ (∃ r, (c.init).post endpoint data hdrs = .ok r)
      ∧ (∃ r, (c.init).put endpoint data hdrs = .ok r)
      ∧ (∃ r, (c.init).patch endpoint data hdrs = .ok r)
      ∧ (∃ r, (c.init).delete endpoint = .ok r)) := by
  refine ⟨⟨?_, ?_, ?_, ?_, ?_⟩, ⟨?_, ?_, ?_, ?_, ?_⟩⟩ <;>
    simp [ApiClient.get, ApiClient.post, ApiClient.put, ApiClient.patch,
      ApiClient.delete, ApiClient.init, hnone]

/-- Witness for C8: a freshly constructed client (context `null`) refuses
all five methods; after `init()` they all dispatch. -/
theorem apiClient_requires_init_witness :
    ((ApiClient.create "" []).get "/users" none
        = .error "API context not initialized. Call init() first."
      ∧ (ApiClient.create "" []).post "/users" none []
        = .error "API context not initialized. Call init() first."
      ∧ (ApiClient.create "" []).put "/users" none []
        = .error "API context not initialized. Call init() first."
      ∧ (ApiClient.create "" []).patch "/users" none []
        = .error "API context not initialized. Call init() first."
      ∧ (ApiClient.create "" []).delete "/users"
        = .error "API context not initialized. Call init() first.")
    ∧ ((∃ r, ((ApiClient.create "" []).init).get "/users" none = .ok r)
      ∧ (∃ r, ((ApiClient.create "" []).init).post "/users" none [] = .ok r)
      ∧ (∃ r, ((ApiClient.create "" []).init).put "/users" none [] = .ok r)
      ∧ (∃ r, ((ApiClient.create "" []).init).patch "/users" none [] = .ok r)
      ∧ (∃ r, ((ApiClient.create "" []).init).delete "/users" = .ok r)) :=
  apiClient_requires_init (ApiClient.create "" []) "/users" none none [] rfl

/-! ## ResponseValidator.validateSchema (`src/api/helpers/data-builder.ts`) -/

/-- A schema entry's value as `validateSchema` receives it: a type-name
string, a nested object schema, or an array literal (whose element
entries the validator never inspects). -/
inductive SType where
  | prim (t : String) : SType
  | nested (fields : List (String × SType)) : SType
  | arrTy (elems : List SType) : SType

/-- JavaScript `typeof` on our JSON values (arrays and `null` are
`"object"`). -/
def typeofVal : Json → String
  | .null => "object"
  | .bool _ => "boolean"
  | .num _ => "number"
  | .str _ => "string"
  | .arr _ => "object"
  | .obj _ => "object"

/-- Property access `body[key]`. -/
def getProp (j : Json) (k : String) : Option Json :=
  match j with
  | .obj fields => fields.lookup k
  | _ => none

/-- `expect(body).toHaveProperty(key)`. -/
def hasProp (j : Json) (k : String) : Bool :=
  (getProp j k).isSome

/-- `typeof body[key]` (an absent property reads as `undefined`). -/
def typeofProp (j : Json) (k : String) : String :=
  match getProp j k with
  | some v => typeofVal v
  | none => "undefined"

/-- `Array.isArray(body[key])`. -/
def isArrayProp (j : Json) (k : String) : Bool :=
  match getProp j k with
  | some (.arr _) => true
  | _ => false

/-- `ResponseValidator.validateNestedSchema`: every entry's key must be
present; a string entry additionally checks `typeof`; any other entry
shape checks nothing further (there is no second recursion). -/
def validateNestedSchema (o : Json) (schema : List (String × SType)) : Bool :=
  schema.all fun kv =>
    hasProp o kv.1 &&
      match kv.2 with
      | .prim t => typeofProp o kv.1 == t
      | _ => true

/-- `ResponseValidator.validateSchema`: every entry's key must be present;
string entries check `typeof`, object entries recurse exactly one level
via `validateNestedSchema`, array entries check `Array.isArray`. -/
def validateSchema (body : Json) (schema : List (String × SType)) : Bool :=
  schema.all fun kv =>
    hasProp body kv.1 &&
      match kv.2 with
      | .prim t => typeofProp body kv.1 == t
      | .nested s => validateNestedSchema ((getProp body kv.1).getD .null) s
      | .arrTy _ => isArrayProp body kv.1

/-- `userSchema` from `src/api/schemas/user-schema.ts`. -/
def userSchema : List (String × SType) :=
  [("id", .prim "number"), ("name", .prim "string"), ("username", .prim "string"),
   ("email", .prim "string"), ("phone", .prim "string"), ("website", .prim "string"),
   ("address", .nested
     [("street", .prim "string"), ("suite", .prim "string"), ("city", .prim "string"),
      ("zipcode", .prim "string"),
      ("geo", .nested [("lat", .prim "string"), ("lng", .prim "string")])]),
   ("company", .nested
     [("name", .prim "string"), ("catchPhrase", .prim "string"), ("bs", .prim "string")])]

/-- A response body shaped like a JSONPlaceholder user, with the
`address.geo` value left as a parameter. -/
def mkUserBody (geo : Json) : Json :=
  .obj [("id", .num 1), ("name", .str "Leanne Graham"), ("username", .str "Bret"),
        ("email", .str "a@b.c"), ("phone", .str "1-770-736-8031"),
        ("website", .str "hildegard.org"),
        ("address", .obj [("street", .str "Kulas Light"), ("suite", .str "Apt. 556"),
          ("city", .str "Gwenborough"), ("zipcode", .str "92998-3874"), ("geo", geo)]),
        ("company", .obj [("name", .str "Romaguera-Crona"),
          ("catchPhrase", .str "Multi-layered client-server neural-net"),
          ("bs", .str "harness real-time e-markets")])]

/-- C10: `validateSchema` checks types only to nesting depth two.  For any
schema entry that is an object nested inside another object entry,
`validateNestedSchema` asserts only that the key is present and checks
nothing about its value; concretely, a user body passes `userSchema`
whatever value sits at `address.geo` — the types of its inner `lat`/`lng`
fields are never checked for any input. -/
theorem validateSchema_depth_two :
    (∀ (o : Json) (k : String) (sub rest : List (String × SType)),
      validateNestedSchema o ((k, SType.nested sub) :: rest)
        = (hasProp o k && validateNestedSchema o rest))
    ∧ ∀ geo : Json, validateSchema (mkUserBody geo) userSchema = true := by
  constructor
  · intro o k sub rest
    simp [validateNestedSchema]
  · intro geo
    rfl

/-! ## Data builders (`src/api/helpers/data-builder.ts`)

Every builder mutates a private object (`this.user`, `this.post`,
`this.comment`, `this.data`) and `build()` returns a *shallow copy*
(`{ ...this.user }`).  To make the aliasing behaviour visible the model
uses an explicit heap: `JsVal.ref` is a reference to another heap object
(as a nested `address` or `geo` value is), so copying a field list is
exactly a JavaScript shallow copy — top-level fields are duplicated,
referenced objects are shared. -/

/-- A JavaScript value stored in an object field. -/
inductive JsVal where
  | num (n : Int) : JsVal
  | str (s : String) : JsVal
  | boolean (b : Bool) : JsVal
  | ref (addr : Nat) : JsVal
deriving Repr, DecidableEq

/-- An object's own properties; assignment prepends after erasing, so
`lookup` sees the latest write. -/
abbrev JsObj := List (String × JsVal)

/-- Property assignment `o[k] = v`. -/
def objSet (o : JsObj) (k : String) (v : JsVal) : JsObj :=
  (k, v) :: o.filter (fun kv => kv.1 != k)

/-- The heap: objects addressed by allocation order. -/
structure Heap where
  objs : List JsObj
deriving Repr, DecidableEq

/-- Allocate a fresh object, returning its address. -/
def Heap.alloc (h : Heap) (o : JsObj) : Heap × Nat :=
  ({ objs := h.objs ++ [o] }, h.objs.length)

/-- Read the object at an address (out-of-range reads as empty). -/
def Heap.readObj (h : Heap) (a : Nat) : JsObj :=
  h.objs.getD a []

/-- Assign one property of the object at an address. -/
def Heap.writeField (h : Heap) (a : Nat) (k : String) (v : JsVal) : Heap :=
  { objs := h.objs.set a (objSet (h.readObj a) k v) }

/-- `UserBuilder`: `this.user` is a reference to a heap object. -/
structure UserBuilder where
  user : Nat
deriving Repr, DecidableEq

/-- `new UserBuilder()`: `this.user = {}`. -/
def UserBuilder.create (h : Heap) : Heap × UserBuilder :=
  let p := h.alloc []
  (p.1, ⟨p.2⟩)

def UserBuilder.withId (h : Heap) (b : UserBuilder) (id : Int) : Heap :=
  h.writeField b.user "id" (.num id)

def UserBuilder.withName (h : Heap) (b : UserBuilder) (name : String) : Heap :=
  h.writeField b.user "name" (.str name)

def UserBuilder.withEmail (h : Heap) (b : UserBuilder) (email : String) : Heap :=
  h.writeField b.user "email" (.str email)

def UserBuilder.withUsername (h : Heap) (b : UserBuilder) (username : String) : Heap :=
  h.writeField b.user "username" (.str username)

def UserBuilder.withPhone (h : Heap) (b : UserBuilder) (phone : String) : Heap :=
  h.writeField b.user "phone" (.str phone)

def UserBuilder.withWebsite (h : Heap) (b : UserBuilder) (website : String) : Heap :=
  h.writeField b.user "website" (.str website)

/-- `withAddress(address)`: the address object is stored by reference. -/
def UserBuilder.withAddress (h : Heap) (b : UserBuilder) (address : Nat) : Heap :=
  h.writeField b.user "address" (.ref address)

def UserBuilder.withCompany (h : Heap) (b : UserBuilder) (company : Nat) : Heap :=
  h.writeField b.user "company" (.ref company)

/-- `build()`: `return { ...this.user }` — a fresh shallow copy. -/
def UserBuilder.build (h : Heap) (b : UserBuilder) : Heap × Nat :=
  h.alloc (h.readObj b.user)

/-- `PostBuilder`. -/
structure PostBuilder where
  post : Nat
deriving Repr, DecidableEq

def PostBuilder.create (h : Heap) : Heap × PostBuilder :=
  let p := h.alloc []
  (p.1, ⟨p.2⟩)

def PostBuilder.withId (h : Heap) (b : PostBuilder) (id : Int) : Heap :=
  h.writeField b.post "id" (.num id)

def PostBuilder.withUserId (h : Heap) (b : PostBuilder) (userId : Int) : Heap :=
  h.writeField b.post "userId" (.num userId)

def PostBuilder.withTitle (h : Heap) (b : PostBuilder) (title : String) : Heap :=
  h.writeField b.post "title" (.str title)

def PostBuilder.withBody (h : Heap) (b : PostBuilder) (body : String) : Heap :=
  h.writeField b.post "body" (.str body)

def PostBuilder.build (h : Heap) (b : PostBuilder) : Heap × Nat :=
  h.alloc (h.readObj b.post)

/-- `CommentBuilder`. -/
structure CommentBuilder where
  comment : Nat
deriving Repr, DecidableEq

def CommentBuilder.create (h : Heap) : Heap × CommentBuilder :=
  let p := h.alloc []
  (p.1, ⟨p.2⟩)

def CommentBuilder.withId (h : Heap) (b : CommentBuilder) (id : Int) : Heap :=
  h.writeField b.comment "id" (.num id)

def CommentBuilder.withPostId (h : Heap) (b : CommentBuilder) (postId : Int) : Heap :=
  h.writeField b.comment "postId" (.num postId)

def CommentBuilder.withName (h : Heap) (b : CommentBuilder) (name : String) : Heap :=
  h.writeField b.comment "name" (.str name)

def CommentBuilder.withEmail (h : Heap) (b : CommentBuilder) (email : String) : Heap :=
  h.writeField b.comment "email" (.str email)

def CommentBuilder.withBody (h : Heap) (b : CommentBuilder) (body : String) : Heap :=
  h.writeField b.comment "body" (.str body)

def CommentBuilder.build (h : Heap) (b : CommentBuilder) : Heap × Nat :=
  h.alloc (h.readObj b.comment)

/-- `GenericBuilder`: `this.data` is a reference to a heap object. -/
structure GenericBuilder where
  data : Nat
deriving Repr, DecidableEq

def GenericBuilder.create (h : Heap) : Heap × GenericBuilder :=
  let p := h.alloc []
  (p.1, ⟨p.2⟩)

/-- `with(key, value)` (named `withKV` here because `with` is reserved in
Lean): `this.data[key] = value`. -/
def GenericBuilder.withKV (h : Heap) (b : GenericBuilder) (key : String) (value : JsVal) :
    Heap :=
  h.writeField b.data key value

/-- `withMany(obj)`: `this.data = { ...this.data, ...obj }` — a *fresh*
merged object replaces the builder's reference. -/
def GenericBuilder.withMany (h : Heap) (b : GenericBuilder) (obj : List (String × JsVal)) :
    Heap × GenericBuilder :=
  let merged := obj.foldl (fun acc kv => objSet acc kv.1 kv.2) (h.readObj b.data)
  let p := h.alloc merged
  (p.1, ⟨p.2⟩)

def GenericBuilder.build (h : Heap) (b : GenericBuilder) : Heap × Nat :=
  h.alloc (h.readObj b.data)

/-- One builder method call, covering all four builder classes: a
single-key setter (every `withX` and `GenericBuilder.with`), the
reference-replacing `GenericBuilder.withMany`, or an interleaved
`build()`. -/
inductive BuilderOp where
  | setField (k : String) (v : JsVal) : BuilderOp
  | setMany (kvs : List (String × JsVal)) : BuilderOp
  | doBuild : BuilderOp
deriving Repr, DecidableEq

/-- A builder in flight: the heap together with the address of the
builder's private data object. -/
structure BState where
  heap : Heap
  addr : Nat
deriving Repr, DecidableEq

/-- Run one builder method. -/
def applyOp (s : BState) : BuilderOp → BState
  | .setField k v => { s with heap := s.heap.writeField s.addr k v }
  | .setMany kvs =>
    let merged := kvs.foldl (fun acc kv => objSet acc kv.1 kv.2) (s.heap.readObj s.addr)
    let p := s.heap.alloc merged
    { heap := p.1, addr := p.2 }
  | .doBuild => { s with heap := (s.heap.alloc (s.heap.readObj s.addr)).1 }

/-- Run a sequence of builder methods. -/
def applyOps (s : BState) (ops : List BuilderOp) : BState :=
  ops.foldl applyOp s

theorem readObj_alloc_of_lt (h : Heap) (o : JsObj) (a : Nat) (ha : a < h.objs.length) :
    (h.alloc o).1.readObj a = h.readObj a := by
  simp only [Heap.alloc, Heap.readObj, List.getD, List.get?_eq_getElem?]
  rw [List.getElem?_append_left ha]

theorem readObj_writeField_of_ne (h : Heap) (a b : Nat) (k : String) (v : JsVal)
    (hne : b ≠ a) : (h.writeField b k v).readObj a = h.readObj a := by
  simp only [Heap.writeField, Heap.readObj, List.getD, List.get?_eq_getElem?]
  rw [List.getElem?_set_ne hne]

theorem readObj_writeField_self (h : Heap) (a : Nat) (k : String) (v : JsVal)
    (ha : a < h.objs.length) :
    (h.writeField a k v).readObj a = objSet (h.readObj a) k v := by
  simp only [Heap.writeField, Heap.readObj, List.getD, List.get?_eq_getElem?]
  rw [List.getElem?_set_eq_of_lt _ ha]
  rfl

theorem writeField_length (h : Heap) (a : Nat) (k : String) (v : JsVal) :
    (h.writeField a k v).objs.length = h.objs.length := by
  simp [Heap.writeField]

theorem alloc_length (h : Heap) (o : JsObj) :
    (h.alloc o).1.objs.length = h.objs.length + 1 := by
  simp [Heap.alloc]

theorem readObj_alloc_new (h : Heap) (o : JsObj) :
    (h.alloc o).1.readObj (h.alloc o).2 = o := by
  simp only [Heap.alloc, Heap.readObj, List.getD, List.get?_eq_getElem?]
  rw [List.getElem?_concat_length]
  rfl

theorem lookup_objSet_self (o : JsObj) (k : String) (v : JsVal) :
    (objSet o k v).lookup k = some v := by
  simp [objSet, List.lookup]

theorem lookup_filter_ne (k k2 : String) (hne : k2 ≠ k) :
    ∀ o : JsObj, (o.filter (fun kv => kv.1 != k)).lookup k2 = o.lookup k2 := by
  intro o
  induction o with
  | nil => rfl
  | cons kv rest ih =>
    by_cases hk : kv.1 = k
    · have hf : (kv.1 != k) = false := by simpa using hk
      have hk2 : (k2 == kv.1) = false := by
        rw [hk]
        simpa using hne
      simp [List.filter_cons, hf, List.lookup, hk2, ih]
    · have hf : (kv.1 != k) = true := by simpa using hk
      by_cases hk2 : k2 = kv.1
      · simp [List.filter_cons, hf, List.lookup, hk2]
      · have hk2f : (k2 == kv.1) = false := by simpa using hk2
        simp [List.filter_cons, hf, List.lookup, hk2f, ih]

theorem lookup_objSet_ne (o : JsObj) (k k2 : String) (v : JsVal) (hne : k2 ≠ k) :
    (objSet o k v).lookup k2 = o.lookup k2 := by
  have h0 : (k2 == k) = false := by simpa using hne
  simp only [objSet, List.lookup, h0]
  exact lookup_filter_ne k k2 hne o

/-- Frame property of builder sequences: an address distinct from the
builder's own data object is never written, so the object stored there is
untouched by any sequence of builder method calls. -/
theorem applyOps_frame (a : Nat) :
    ∀ (ops : List BuilderOp) (s : BState),
      a < s.heap.objs.length → s.addr ≠ a →
      (applyOps s ops).heap.readObj a = s.heap.readObj a
      ∧ a < (applyOps s ops).heap.objs.length
      ∧ (applyOps s ops).addr ≠ a := by
  intro ops
  induction ops with
  | nil => intro s hlt hne; exact ⟨rfl, hlt, hne⟩
  | cons op ops ih =>
    intro s hlt hne
    have step : (applyOp s op).heap.readObj a = s.heap.readObj a
        ∧ a < (applyOp s op).heap.objs.length
        ∧ (applyOp s op).addr ≠ a := by
      cases op with
      | setField k v =>
        refine ⟨readObj_writeField_of_ne s.heap a s.addr k v hne, ?_, hne⟩
        show a < (s.heap.writeField s.addr k v).objs.length
        rw [writeField_length]
        exact hlt
      | setMany kvs =>
        refine ⟨readObj_alloc_of_lt s.heap _ a hlt, ?_, ?_⟩
        · show a < (s.heap.alloc _).1.objs.length
          rw [alloc_length]
          omega
        · show s.heap.objs.length ≠ a
          omega
      | doBuild =>
        refine ⟨readObj_alloc_of_lt s.heap _ a hlt, ?_, hne⟩
        show a < (s.heap.alloc _).1.objs.length
        rw [alloc_length]
        omega
    have := ih (applyOp s op) step.2.1 step.2.2
    refine ⟨?_, this.2.1, this.2.2⟩
    rw [show applyOps s (op :: ops) = applyOps (applyOp s op) ops from rfl]
    rw [this.1, step.1]

/-- C9: `build()` returns a fresh shallow copy.  The object a
`UserBuilder.build` or `GenericBuilder.build` returns sits at a fresh
address, so no later builder method — any sequence of single-key setters,
`withMany`, or further `build()`s (and likewise the identical
`PostBuilder`/`CommentBuilder` setters, which are `setField` instances) —
ever changes its top-level fields; moreover every single-key setter
(modelled by `Heap.writeField`, which every `withX` unfolds to, e.g.
`UserBuilder.withName`) assigns exactly its own key and leaves every
other accumulated key unchanged. -/
theorem builders_build_shallow_copy :
    (∀ (h : Heap) (b : UserBuilder) (ops : List BuilderOp), b.user < h.objs.length →
      (applyOps { heap := (UserBuilder.build h b).1, addr := b.user } ops).heap.readObj
          (UserBuilder.build h b).2 = h.readObj b.user)
    ∧ (∀ (h : Heap) (b : GenericBuilder) (ops : List BuilderOp), b.data < h.objs.length →
      (applyOps { heap := (GenericBuilder.build h b).1, addr := b.data } ops).heap.readObj
          (GenericBuilder.build h b).2 = h.readObj b.data)
    ∧ (∀ (h : Heap) (a : Nat) (k k2 : String) (v : JsVal), a < h.objs.length →
        ((h.writeField a k v).readObj a).lookup k = some v
        ∧ (k2 ≠ k → ((h.writeField a k v).readObj a).lookup k2 = (h.readObj a).lookup k2))
    ∧ (∀ (h : Heap) (b : UserBuilder) (n : String),
        UserBuilder.withName h b n = h.writeField b.user "name" (.str n)) := by
  have buildFrame : ∀ (h : Heap) (a : Nat) (ops : List BuilderOp), a < h.objs.length →
      (applyOps { heap := (h.alloc (h.readObj a)).1, addr := a } ops).heap.readObj
          (h.alloc (h.readObj a)).2 = h.readObj a := by
    intro h a ops ha
    have hframe := applyOps_frame (h.alloc (h.readObj a)).2 ops
      ⟨(h.alloc (h.readObj a)).1, a⟩
      (by show h.objs.length < (h.alloc _).1.objs.length; rw [alloc_length]; omega)
      (by show a ≠ h.objs.length; omega)
    rw [hframe.1]
    exact readObj_alloc_new h (h.readObj a)
  refine ⟨fun h b ops hlt => buildFrame h b.user ops hlt,
    fun h b ops hlt => buildFrame h b.data ops hlt, ?_, fun _ _ _ => rfl⟩
  intro h a k k2 v ha
  rw [readObj_writeField_self h a k v ha]
  exact ⟨lookup_objSet_self (h.readObj a) k v,
    fun hne => lookup_objSet_ne (h.readObj a) k k2 v hne⟩

/-- Witness for C9: a one-object heap holding `{ name: "A" }`; after
`build()` a later `withName("B")`-style write leaves the built copy's
fields reading `{ name: "A" }`. -/
theorem builders_build_shallow_copy_witness :
    (applyOps { heap := (UserBuilder.build ⟨[[("name", JsVal.str "A")]]⟩ ⟨0⟩).1, addr := 0 }
        [BuilderOp.setField "name" (JsVal.str "B")]).heap.readObj
      (UserBuilder.build ⟨[[("name", JsVal.str "A")]]⟩ ⟨0⟩).2
      = Heap.readObj ⟨[[("name", JsVal.str "A")]]⟩ 0 :=
  builders_build_shallow_copy.1 ⟨[[("name", JsVal.str "A")]]⟩ ⟨0⟩
    [BuilderOp.setField "name" (JsVal.str "B")] (by decide)

end Forge
